import Mathlib

/-!
Verification of the gamma-budget-planner pricing engine and budget version
store.  The pricing functions are shallowly embedded from
`public/src/utils/pricing.js`; the version-store operations are embedded from
the HTTP handlers in `server.js` (budget create / update / restore /
customize).  JavaScript numbers are idealised as rationals; `Math.round` is
modelled as `jsRound` (floor of x + 1/2, which is JS round-half-up).
-/

namespace GammaBudget

/-- JS `Math.round`: round half toward positive infinity. -/
def jsRound (x : ℚ) : ℤ := ⌊x + 1/2⌋

/-- Association-list lookup, modelling JS object property access `obj[k]`
(`none` = property absent / `undefined`). -/
def lookup {α : Type} (l : List (String × α)) (k : String) : Option α :=
  (l.find? (fun kv => kv.1 = k)).map (fun kv => kv.2)

-- ============================================================
-- PRICING: data model (shapes of the catalog objects)
-- ============================================================

/-- A tier offering inside a category: `{ price, sizeScale? }`. -/
structure TierOffering where
  price : ℚ
  sizeScale : Option ℚ := none
deriving DecidableEq, Repr

/-- A catalog category (presentation-only fields omitted). -/
structure Category where
  id : String
  tiers : List (String × TierOffering)
  sizeScale : ℚ := 0
  baseTierNoScale : Bool := false
  isCustomized : Bool := false
deriving DecidableEq, Repr

/-- An extra item: `{ id, price, sizeScale? }`. -/
structure Extra where
  id : String
  price : ℚ
  sizeScale : Option ℚ := none
deriving DecidableEq, Repr

/-- A free-form modifier line `{ name, amount }`. -/
structure Modifier where
  name : String := ""
  amount : ℚ
deriving DecidableEq, Repr

/-- A per-category adjustment `{ name, amount }`. -/
structure CatMod where
  name : String := ""
  amount : ℚ
deriving DecidableEq, Repr

-- ============================================================
-- PRICING: functions (from public/src/utils/pricing.js)
-- ============================================================

/-- `getSizeMultiplier(sqft, scaleFactor)`. -/
def getSizeMultiplier (sqft scaleFactor : ℚ) : ℚ :=
  if scaleFactor = 0 then 1
  else
    let effectiveSqft := max sqft 2500
    let baseline : ℚ := 4000
    1 + (effectiveSqft / baseline - 1) * scaleFactor

/-- `getCategoryPrice(cat, tier, homeSize)`.  The JS `if (!tier) return 0`
is the empty-string test (selections hold tier-name strings); a tier name
absent from `cat.tiers` also prices as 0. -/
def getCategoryPrice (cat : Category) (tier : String) (homeSize : ℚ) : ℚ :=
  if tier = "" then 0
  else
    match lookup cat.tiers tier with
    | none => 0
    | some tierData =>
      let base := tierData.price
      if cat.isCustomized then base
      else
        let skipSize := cat.baseTierNoScale && (tier = "good")
        let scaleToUse := tierData.sizeScale.getD cat.sizeScale
        let sizeMult := if skipSize then 1 else getSizeMultiplier homeSize scaleToUse
        (jsRound (base * sizeMult / 100) : ℚ) * 100

/-- `getExtraPrice(extra, homeSize)`. -/
def getExtraPrice (extra : Extra) (homeSize : ℚ) : ℚ :=
  match extra.sizeScale with
  | some s => (jsRound (extra.price * getSizeMultiplier homeSize s / 100) : ℚ) * 100
  | none => extra.price

/-- The parameter object of `calculateTotal`.  A selection value is
`none` for JS `null`/`undefined` and `some t` for a tier-name string;
an extras value is the toggle boolean. -/
structure CalcParams where
  categories : List Category
  selections : List (String × Option String)
  extras : List (String × Bool)
  extrasData : List Extra
  modifiers : List Modifier
  catMods : List (String × CatMod)
  homeSize : ℚ

/-- The result object of `calculateTotal`. -/
structure Totals where
  subtotal : ℚ
  extrasTotal : ℚ
  modifiersTotal : ℚ
  equipmentSubtotal : ℚ
  taxEstimate : ℚ
  grandTotal : ℚ
  selectedCount : ℕ
deriving DecidableEq, Repr

/-- JS truthiness of a selection value (`null`, `undefined` and the empty
string are falsy; any other string is truthy). -/
def selTruthy : Option String → Bool
  | none => false
  | some s => s ≠ ""

/-- One step of the `categories.forEach` accumulation in `calculateTotal`:
on a truthy selection add the category price, then the per-category modifier
amount when truthy (non-zero), and bump `selectedCount`. -/
def catStep (sels : List (String × Option String))
    (cms : List (String × CatMod)) (homeSize : ℚ)
    (acc : ℚ × ℕ) (cat : Category) : ℚ × ℕ :=
  match lookup sels cat.id with
  | some (some tier) =>
    if tier = "" then acc
    else
      let s1 := acc.1 + getCategoryPrice cat tier homeSize
      let s2 := match lookup cms cat.id with
        | some m => if m.amount ≠ 0 then s1 + m.amount else s1
        | none => s1
      (s2, acc.2 + 1)
  | _ => acc

/-- `calculateTotal({categories, selections, extras, extrasData, modifiers,
catMods, homeSize})`. -/
def calculateTotal (p : CalcParams) : Totals :=
  let sc := p.categories.foldl (catStep p.selections p.catMods p.homeSize) (0, 0)
  let extrasTotal := p.extrasData.foldl
    (fun acc e => if (lookup p.extras e.id).getD false then acc + getExtraPrice e p.homeSize else acc) 0
  let modifiersTotal := p.modifiers.foldl (fun acc m => acc + m.amount) 0
  let equipmentSubtotal := sc.1 + extrasTotal + modifiersTotal
  let taxEstimate := (jsRound (equipmentSubtotal * (7/100)) : ℚ)
  let grandTotal := equipmentSubtotal + taxEstimate
  ⟨sc.1, extrasTotal, modifiersTotal, equipmentSubtotal, taxEstimate, grandTotal, sc.2⟩

-- ============================================================
-- DOMINANT TIER (from pricing.js getDominantTier)
-- ============================================================

/-- The fixed key order of the `tierCounts` object literal
`{ good: 0, standard: 0, better: 0, best: 0 }`. -/
def tierNames : List String := ["good", "standard", "better", "best"]

/-- The `tierCounts` object: four fixed keys. -/
structure TierCounts where
  good : ℕ
  standard : ℕ
  better : ℕ
  best : ℕ
deriving DecidableEq, Repr

/-- Read a count by key (`tierCounts[k]`; 0 for a key the object lacks). -/
def tierCount (c : TierCounts) : String → ℕ
  | "good" => c.good
  | "standard" => c.standard
  | "better" => c.better
  | "best" => c.best
  | _ => 0

/-- `tierCounts[t]++` guarded by `tierCounts.hasOwnProperty(t)` (the JS
truthiness guard on `t` is subsumed: the empty string is not a key). -/
def bumpTier (c : TierCounts) (t : String) : TierCounts :=
  if t = "good" then { c with good := c.good + 1 }
  else if t = "standard" then { c with standard := c.standard + 1 }
  else if t = "better" then { c with better := c.better + 1 }
  else if t = "best" then { c with best := c.best + 1 }
  else c

/-- The `Object.values(selections).forEach` counting loop. -/
def countTiers (selections : List (String × Option String)) : TierCounts :=
  selections.foldl
    (fun c kv => match kv.2 with
      | some t => bumpTier c t
      | none => c)
    ⟨0, 0, 0, 0⟩

/-- `Math.max(...Object.values(tierCounts))`. -/
def maxTierCount (c : TierCounts) : ℕ :=
  max (max (max c.good c.standard) c.better) c.best

/-- The `labels` map of `getDominantTier`. -/
def tierLabel : String → String
  | "good" => "Good Tier"
  | "standard" => "Standard Tier"
  | "better" => "Better Tier"
  | "best" => "Best Tier"
  | _ => ""

/-- `getDominantTier(selections)`: the `Object.keys(tierCounts).find`
scans keys in the literal order good, standard, better, best. -/
def getDominantTier (selections : List (String × Option String)) : String :=
  let c := countTiers selections
  let maxCount := maxTierCount c
  if maxCount = 0 then ""
  else if c.good = maxCount then "Good Tier"
  else if c.standard = maxCount then "Standard Tier"
  else if c.better = maxCount then "Better Tier"
  else "Best Tier"

-- ============================================================
-- BUDGET VERSION STORE (from server.js budget routes)
-- ============================================================

/-- A selection-state snapshot as stored in a version row: a JSON object
modelled as field-name / serialized-value pairs. -/
abbrev StateObj := List (String × String)

/-- Insert a field into a key-sorted list (helper for `normalizeState`);
keys are compared in lexicographic code-point order, as
`Object.keys(rest).sort()` does. -/
def insertByKey (kv : String × String) : List (String × String) → List (String × String)
  | [] => [kv]
  | hd :: tl => if kv.1.data ≤ hd.1.data then kv :: hd :: tl else hd :: insertByKey kv tl

/-- The handler's `normalizeState`: drop the volatile `timestamp` field and
serialize with sorted keys (`JSON.stringify(rest, Object.keys(rest).sort())`);
two states normalize byte-equal iff these sorted field lists are equal. -/
def normalizeState (s : StateObj) : List (String × String) :=
  (s.filter (fun kv => kv.1 ≠ "timestamp")).foldr insertByKey []

/-- A budget_versions row as surfaced by `loadBudget` (timestamps idealised
as integer epoch milliseconds). -/
structure Version where
  version : ℕ
  timestamp : ℤ
  state : StateObj
  note : String
  pinned : Bool
deriving DecidableEq, Repr

/-- A budget as far as the version-store logic reads it: the version rows
in `version_number` order plus the `current_state` pointer. -/
structure Budget where
  versions : List Version
  currentState : StateObj
deriving DecidableEq, Repr

/-- JS `o || d` on an optional note (absent and empty string are falsy). -/
def jsOrStr (o : Option String) (d : String) : String :=
  match o with
  | some s => if s = "" then d else s
  | none => d

def VERSION_CONSOLIDATION_MS : ℤ := 15 * 60 * 1000

/-- The SQL `UPDATE budget_versions SET is_pinned = 1, note = ? WHERE
budget_id = ? AND version_number = ?` (pin-in-place branch). -/
def setPinnedAndNote (vs : List Version) (vn : ℕ) (note : String) : List Version :=
  vs.map (fun v => if v.version = vn then { v with pinned := true, note := note } else v)

/-- The SQL `UPDATE budget_versions SET state = ?, created_at = ? WHERE
budget_id = ? AND version_number = ?` (consolidation branch). -/
def overwriteStateAt (vs : List Version) (vn : ℕ) (s : StateObj) (now : ℤ) : List Version :=
  vs.map (fun v => if v.version = vn then { v with state := s, timestamp := now } else v)

/-- Which branch of the PUT handler ran (mirrors the response payload:
`versionCount` unchanged for the first three, `+1` for an append;
`consolidated` true only for the overwrite branch). -/
inductive UpdateOutcome
  | pinnedInPlace
  | noChange
  | consolidated
  | appended
deriving DecidableEq, Repr

/-- `POST /api/budgets` after validation: seed version 1, pinned. -/
def createBudget (state : StateObj) (now : ℤ) : Budget :=
  { versions := [⟨1, now, state, "Initial budget", true⟩], currentState := state }

/-- `PUT /api/budgets/:id` after `loadBudget`: the version-consolidation
policy.  `none` models the crash on a budget with no versions (unreachable
for budgets made by `createBudget`). -/
def updateBudget (b : Budget) (newState : StateObj) (note : Option String)
    (pin : Bool) (now : ℤ) : Option (Budget × UpdateOutcome) :=
  match b.versions.getLast? with
  | none => none
  | some lastVersion =>
    if normalizeState lastVersion.state = normalizeState newState then
      if pin && !lastVersion.pinned then
        some ({ b with versions :=
                  setPinnedAndNote b.versions lastVersion.version (jsOrStr note lastVersion.note) },
              .pinnedInPlace)
      else
        some (b, .noChange)
    else
      let shouldConsolidate := !lastVersion.pinned && (now - lastVersion.timestamp < VERSION_CONSOLIDATION_MS)
      if shouldConsolidate && !pin then
        some ({ versions := overwriteStateAt b.versions lastVersion.version newState now,
                currentState := newState },
              .consolidated)
      else
        let newVersionNum := b.versions.length + 1
        let newNote := if pin then jsOrStr note "Shared/Emailed" else "Auto-save"
        some ({ versions := b.versions ++ [⟨newVersionNum, now, newState, newNote, pin⟩],
                currentState := newState },
              .appended)

/-- `POST /api/admin/budgets/:id/restore/:version`: `none` models the 404
on an unknown version number. -/
def restoreBudget (b : Budget) (versionNum : ℕ) (now : ℤ) : Option (Budget × ℕ) :=
  match b.versions.find? (fun v => v.version = versionNum) with
  | none => none
  | some targetVersion =>
    let newVersionNum := b.versions.length + 1
    some ({ versions := b.versions ++
              [⟨newVersionNum, now, targetVersion.state,
                "Restored to version " ++ toString versionNum, true⟩],
            currentState := targetVersion.state },
          newVersionNum)

/-- `PUT /api/admin/budgets/:id/customize`: wipe all version rows and
reseed a single pinned version 1 from the budget's current state. -/
def customizeBudget (b : Budget) (now : ℤ) : Budget :=
  { versions := [⟨1, now, b.currentState, "Customization applied", true⟩],
    currentState := b.currentState }

/-- The version-numbering invariant: the rows of a budget are numbered
exactly 1, 2, …, N in order. -/
def versionsConsecutive (b : Budget) : Prop :=
  b.versions.map (fun v => v.version) = List.range' 1 b.versions.length

-- ============================================================
-- SPEC-SIDE VIEWS AND SHARED HELPER LEMMAS
-- ============================================================

/-- The spec's worked example: a networking category with sizeScale 0.8
and a good tier priced 5700 at the 4000 sqft reference size. -/
def exampleCategory : Category :=
  { id := "networking", tiers := [("good", { price := 5700 })], sizeScale := 4/5 }

/-- The tier a category's selection names, `none` when the selection is
null/absent/empty (the code's truthiness test on `selections[cat.id]`). -/
def selectedTier (sels : List (String × Option String)) (id : String) : Option String :=
  match lookup sels id with
  | some (some t) => if t = "" then none else some t
  | _ => none

/-- The per-category modifier amount for a category id (0 when absent). -/
def catModAmount (cms : List (String × CatMod)) (id : String) : ℚ :=
  match lookup cms id with
  | some m => m.amount
  | none => 0

/-- What a selected category contributes to the subtotal: its tier price
plus its per-category modifier amount. -/
def categoryContribution (sels : List (String × Option String))
    (cms : List (String × CatMod)) (homeSize : ℚ) (c : Category) : ℚ :=
  getCategoryPrice c ((selectedTier sels c.id).getD "") homeSize + catModAmount cms c.id

theorem foldl_add_sum {α : Type} (f : α → ℚ) :
    ∀ (l : List α) (init : ℚ),
      l.foldl (fun acc x => acc + f x) init = init + (l.map f).sum := by
  intro l
  induction l with
  | nil => intro init; simp
  | cons x xs ih => intro init; simp [ih]; ring

theorem foldl_filter_add_sum {α : Type} (cond : α → Bool) (f : α → ℚ) :
    ∀ (l : List α) (init : ℚ),
      l.foldl (fun acc x => if cond x then acc + f x else acc) init
        = init + ((l.filter cond).map f).sum := by
  intro l
  induction l with
  | nil => intro init; simp
  | cons x xs ih =>
    intro init
    by_cases hc : cond x
    · simp [hc, ih]; ring
    · simp [hc, ih]

theorem catStep_foldl (sels : List (String × Option String))
    (cms : List (String × CatMod)) (homeSize : ℚ) :
    ∀ (cats : List Category) (init : ℚ × ℕ),
      cats.foldl (catStep sels cms homeSize) init
        = (init.1 + ((cats.filter (fun c => (selectedTier sels c.id).isSome)).map
              (categoryContribution sels cms homeSize)).sum,
           init.2 + (cats.filter (fun c => (selectedTier sels c.id).isSome)).length) := by
  intro cats
  induction cats with
  | nil => intro init; simp
  | cons c cats ih =>
    intro init
    rcases hl : lookup sels c.id with _ | ov
    · simp only [List.foldl_cons, catStep, hl]
      rw [ih]
      simp [selectedTier, hl]
    · rcases ov with _ | t
      · simp only [List.foldl_cons, catStep, hl]
        rw [ih]
        simp [selectedTier, hl]
      · by_cases ht : t = ""
        · simp only [List.foldl_cons, catStep, hl, if_pos ht]
          rw [ih]
          simp [selectedTier, hl, ht]
        · have hstep : catStep sels cms homeSize init c
              = (init.1 + categoryContribution sels cms homeSize c, init.2 + 1) := by
            simp only [catStep, hl, if_neg ht, categoryContribution, selectedTier,
              catModAmount, Option.getD]
            rcases hm : lookup cms c.id with _ | m
            · simp [hm, ht]
            · by_cases hz : m.amount = 0
              · simp [hm, hz, ht]
              · simp [hm, hz, ht, add_assoc]
          simp only [List.foldl_cons, hstep]
          rw [ih]
          have hsel : (selectedTier sels c.id).isSome = true := by
            simp [selectedTier, hl, ht]
          simp only [List.filter_cons, hsel, if_pos, List.map_cons, List.sum_cons,
            List.length_cons, Prod.mk.injEq]
          constructor
          · ring
          · omega

/-- C1: `calculateTotal` computes the claimed aggregation: `subtotal` sums
the selected categories' prices plus their per-category modifier amounts,
`selectedCount` counts them, `extrasTotal` sums toggled-on extras,
`modifiersTotal` sums all modifier amounts unclamped, and
`equipmentSubtotal`, `taxEstimate` (7% rounded to the nearest dollar) and
`grandTotal` satisfy their defining equations. -/
theorem C1_calculateTotal (p : CalcParams) :
    (calculateTotal p).subtotal
        = ((p.categories.filter (fun c => (selectedTier p.selections c.id).isSome)).map
            (categoryContribution p.selections p.catMods p.homeSize)).sum
    ∧ (calculateTotal p).selectedCount
        = (p.categories.filter (fun c => (selectedTier p.selections c.id).isSome)).length
    ∧ (calculateTotal p).extrasTotal
        = ((p.extrasData.filter (fun e => (lookup p.extras e.id).getD false)).map
            (fun e => getExtraPrice e p.homeSize)).sum
    ∧ (calculateTotal p).modifiersTotal = (p.modifiers.map (fun m => m.amount)).sum
    ∧ (calculateTotal p).equipmentSubtotal
        = (calculateTotal p).subtotal + (calculateTotal p).extrasTotal
            + (calculateTotal p).modifiersTotal
    ∧ (calculateTotal p).taxEstimate
        = (jsRound ((calculateTotal p).equipmentSubtotal * (7/100)) : ℚ)
    ∧ (calculateTotal p).grandTotal
        = (calculateTotal p).equipmentSubtotal + (calculateTotal p).taxEstimate := by
  unfold calculateTotal
  rw [catStep_foldl, foldl_filter_add_sum, foldl_add_sum]
  simp

-- ============================================================
-- C6: category prices and the multiple-of-100 rounding
-- ============================================================

/-- A customized category whose hand-edited tier price is not a multiple
of 100 (the `isCustomized` branch returns the raw price unscaled). -/
def customizedCategory : Category :=
  { id := "custom", tiers := [("good", { price := 150 })], sizeScale := 0,
    isCustomized := true }

/-- C6 counterexample: for a customized category with raw tier price 150,
`getCategoryPrice` returns 150, which is not a multiple of 100 — the claim
"always a multiple of 100" fails on the `isCustomized` branch. -/
theorem C6_counterexample :
    getCategoryPrice customizedCategory "good" 4000 = 150
    ∧ ¬ ∃ k : ℤ, getCategoryPrice customizedCategory "good" 4000 = 100 * k := by
  constructor
  · rfl
  · rintro ⟨k, hk⟩
    have h150 : (150 : ℚ) = 100 * (k : ℚ) := by
      rw [← hk]; rfl
    have : (150 : ℤ) = 100 * k := by exact_mod_cast h150
    omega

/-- C6 (amended): for every non-customized category, every tier name and
every home size, `getCategoryPrice` returns a multiple of 100. -/
theorem C6_categoryPrice_multiple_of_100 (cat : Category) (tier : String)
    (homeSize : ℚ) (h : cat.isCustomized = false) :
    ∃ k : ℤ, getCategoryPrice cat tier homeSize = 100 * k := by
  by_cases ht : tier = ""
  · exact ⟨0, by simp [getCategoryPrice, ht]⟩
  · rcases hl : lookup cat.tiers tier with _ | tierData
    · exact ⟨0, by simp [getCategoryPrice, ht, hl]⟩
    · refine ⟨jsRound (tierData.price *
          (if cat.baseTierNoScale && (tier = "good") then 1
           else getSizeMultiplier homeSize (tierData.sizeScale.getD cat.sizeScale)) / 100), ?_⟩
      simp only [getCategoryPrice, ht, hl, h, if_neg, Bool.false_eq_true, ite_false]
      ring

/-- C6 witness: the spec's worked example category (sizeScale 0.8, good
tier price 5700) is not customized, and its price is a multiple of 100. -/
theorem C6_witness :
    exampleCategory.isCustomized = false
    ∧ ∃ k : ℤ, getCategoryPrice exampleCategory "good" 6000 = 100 * k :=
  ⟨rfl, C6_categoryPrice_multiple_of_100 exampleCategory "good" 6000 rfl⟩

-- ============================================================
-- C7: tolerant pricing of unknown references
-- ============================================================

/-- C7: an empty tier name or a tier name absent from the category's tier
map is silently priced as 0, and `calculateTotal` still returns the full
totals record, whose aggregate fields always satisfy their defining
equations (no error path exists). -/
theorem C7_tolerant_pricing (cat : Category) (tier : String) (homeSize : ℚ)
    (p : CalcParams) (h : tier = "" ∨ lookup cat.tiers tier = none) :
    getCategoryPrice cat tier homeSize = 0
    ∧ (calculateTotal p).equipmentSubtotal
        = (calculateTotal p).subtotal + (calculateTotal p).extrasTotal
            + (calculateTotal p).modifiersTotal
    ∧ (calculateTotal p).grandTotal
        = (calculateTotal p).equipmentSubtotal + (calculateTotal p).taxEstimate := by
  refine ⟨?_, by simp [calculateTotal], by simp [calculateTotal]⟩
  rcases h with ht | hl
  · simp [getCategoryPrice, ht]
  · by_cases ht : tier = ""
    · simp [getCategoryPrice, ht]
    · simp [getCategoryPrice, ht, hl]

/-- C7 witness: the example category prices the unknown tier name
"platinum" as 0. -/
theorem C7_witness :
    lookup exampleCategory.tiers "platinum" = none
    ∧ getCategoryPrice exampleCategory "platinum" 6000 = 0 :=
  ⟨rfl, (C7_tolerant_pricing exampleCategory "platinum" 6000
      ⟨[], [], [], [], [], [], 4000⟩ (Or.inr rfl)).1⟩

-- ============================================================
-- C8: monotonicity of the size multiplier
-- ============================================================

/-- C8: with the 2500-sqft floor clamp applied inside, `getSizeMultiplier`
is monotonically increasing in sqft for every fixed scaleFactor > 0 and
monotonically decreasing for every fixed scaleFactor < 0. -/
theorem C8_sizeMultiplier_monotone (scaleFactor sqft1 sqft2 : ℚ)
    (h : sqft1 ≤ sqft2) :
    (0 < scaleFactor →
      getSizeMultiplier sqft1 scaleFactor ≤ getSizeMultiplier sqft2 scaleFactor)
    ∧ (scaleFactor < 0 →
      getSizeMultiplier sqft2 scaleFactor ≤ getSizeMultiplier sqft1 scaleFactor) := by
  have hm : max sqft1 2500 ≤ max sqft2 2500 := max_le_max h le_rfl
  have hdiv : max sqft1 2500 / 4000 ≤ max sqft2 2500 / 4000 :=
    (div_le_div_iff_of_pos_right (by norm_num : (0:ℚ) < 4000)).mpr hm
  constructor
  · intro hs
    unfold getSizeMultiplier
    rw [if_neg hs.ne', if_neg hs.ne']
    have := mul_le_mul_of_nonneg_right (sub_le_sub_right hdiv 1) hs.le
    linarith
  · intro hs
    unfold getSizeMultiplier
    rw [if_neg hs.ne, if_neg hs.ne]
    nlinarith [mul_nonneg (sub_nonneg.mpr hdiv) (neg_nonneg.mpr hs.le)]

/-- C8 witness: instantiated at sqft 3000 ≤ 5000 with scaleFactor 4/5 on
the increasing side and -1 on the decreasing side. -/
theorem C8_witness :
    ((3000 : ℚ) ≤ 5000
      ∧ (0 < (4/5 : ℚ) →
          getSizeMultiplier 3000 (4/5) ≤ getSizeMultiplier 5000 (4/5)))
    ∧ ((-1 : ℚ) < 0 →
        getSizeMultiplier 5000 (-1) ≤ getSizeMultiplier 3000 (-1)) :=
  ⟨⟨by norm_num, (C8_sizeMultiplier_monotone (4/5) 3000 5000 (by norm_num)).1⟩,
    (C8_sizeMultiplier_monotone (-1) 3000 5000 (by norm_num)).2⟩

-- ============================================================
-- C9 / C10: dominant tier
-- ============================================================

/-- Occurrences of tier name `t` among the selection values. -/
def tierOccurrences (sels : List (String × Option String)) (t : String) : ℕ :=
  (sels.filter (fun kv => kv.2 = some t)).length

theorem bumpTier_good (c : TierCounts) (t : String) :
    (bumpTier c t).good = if t = "good" then c.good + 1 else c.good := by
  unfold bumpTier; split_ifs <;> rfl

theorem bumpTier_standard (c : TierCounts) (t : String) :
    (bumpTier c t).standard = if t = "standard" then c.standard + 1 else c.standard := by
  unfold bumpTier; split_ifs <;> first | rfl | simp_all

theorem bumpTier_better (c : TierCounts) (t : String) :
    (bumpTier c t).better = if t = "better" then c.better + 1 else c.better := by
  unfold bumpTier; split_ifs <;> first | rfl | simp_all

theorem bumpTier_best (c : TierCounts) (t : String) :
    (bumpTier c t).best = if t = "best" then c.best + 1 else c.best := by
  unfold bumpTier; split_ifs <;> first | rfl | simp_all

theorem countTiers_loop (sels : List (String × Option String)) :
    ∀ c : TierCounts,
      sels.foldl
        (fun c kv => match kv.2 with
          | some t => bumpTier c t
          | none => c) c
      = ⟨c.good + tierOccurrences sels "good",
         c.standard + tierOccurrences sels "standard",
         c.better + tierOccurrences sels "better",
         c.best + tierOccurrences sels "best"⟩ := by
  induction sels with
  | nil => intro c; simp [tierOccurrences]
  | cons kv tl ih =>
    intro c
    rcases hv : kv.2 with _ | t
    · simp only [List.foldl_cons, hv]
      rw [ih]
      simp [tierOccurrences, hv]
    · simp only [List.foldl_cons, hv]
      rw [ih]
      have hocc : ∀ u : String,
          tierOccurrences (kv :: tl) u
            = (if t = u then 1 else 0) + tierOccurrences tl u := by
        intro u
        by_cases htu : t = u
        · simp [tierOccurrences, hv, htu]
          omega
        · simp [tierOccurrences, hv, htu, fun h : some t = some u => htu (Option.some.inj h)]
      simp only [TierCounts.mk.injEq, hocc, bumpTier_good, bumpTier_standard,
        bumpTier_better, bumpTier_best]
      refine ⟨?_, ?_, ?_, ?_⟩ <;> (split_ifs <;> omega)

theorem countTiers_eq_occurrences (sels : List (String × Option String)) :
    countTiers sels
      = ⟨tierOccurrences sels "good", tierOccurrences sels "standard",
         tierOccurrences sels "better", tierOccurrences sels "best"⟩ := by
  unfold countTiers
  rw [countTiers_loop]
  simp

/-- C9: `getDominantTier` counts occurrences of each tier name across the
selection values; it returns the empty string when all counts are zero,
and the display label of the strictly-maximal tier when one exists. -/
theorem C9_dominantTier (sels : List (String × Option String)) :
    countTiers sels
      = ⟨tierOccurrences sels "good", tierOccurrences sels "standard",
         tierOccurrences sels "better", tierOccurrences sels "best"⟩
    ∧ (countTiers sels = ⟨0, 0, 0, 0⟩ → getDominantTier sels = "")
    ∧ ∀ t ∈ tierNames,
        (∀ u ∈ tierNames, u ≠ t →
          tierCount (countTiers sels) u < tierCount (countTiers sels) t) →
        getDominantTier sels = tierLabel t := by
  refine ⟨countTiers_eq_occurrences sels, ?_, ?_⟩
  · intro h
    simp [getDominantTier, maxTierCount, h]
  · intro t htmem hstrict
    have hg := fun hne => hstrict "good" (by simp [tierNames]) hne
    have hs := fun hne => hstrict "standard" (by simp [tierNames]) hne
    have hb := fun hne => hstrict "better" (by simp [tierNames]) hne
    have he := fun hne => hstrict "best" (by simp [tierNames]) hne
    set c := countTiers sels with hc
    simp only [tierNames, List.mem_cons] at htmem
    rcases htmem with rfl | rfl | rfl | rfl | habs
    · have h1 := hs (by decide)
      have h2 := hb (by decide)
      have h3 := he (by decide)
      simp only [tierCount] at h1 h2 h3
      have hmax : maxTierCount c = c.good := by
        simp only [maxTierCount]; omega
      simp only [getDominantTier, ← hc, hmax, tierLabel]
      rw [if_neg (by omega)]
      simp
    · have h1 := hg (by decide)
      have h2 := hb (by decide)
      have h3 := he (by decide)
      simp only [tierCount] at h1 h2 h3
      have hmax : maxTierCount c = c.standard := by
        simp only [maxTierCount]; omega
      simp only [getDominantTier, ← hc, hmax, tierLabel]
      rw [if_neg (by omega), if_neg (by omega)]
      simp
    · have h1 := hg (by decide)
      have h2 := hs (by decide)
      have h3 := he (by decide)
      simp only [tierCount] at h1 h2 h3
      have hmax : maxTierCount c = c.better := by
        simp only [maxTierCount]; omega
      simp only [getDominantTier, ← hc, hmax, tierLabel]
      rw [if_neg (by omega), if_neg (by omega), if_neg (by omega)]
      simp
    · have h1 := hg (by decide)
      have h2 := hs (by decide)
      have h3 := hb (by decide)
      simp only [tierCount] at h1 h2 h3
      have hmax : maxTierCount c = c.best := by
        simp only [maxTierCount]; omega
      simp only [getDominantTier, ← hc, hmax, tierLabel]
      rw [if_neg (by omega), if_neg (by omega), if_neg (by omega), if_neg (by omega)]
    · exact absurd habs (List.not_mem_nil t)

/-- A selections map where "best" is chosen strictly most often. -/
def demoSelections : List (String × Option String) :=
  [("networking", some "best"), ("audio", some "best"), ("lighting", some "good"),
   ("security", none)]

/-- C9 witness: on `demoSelections` the strict-maximum branch applies and
yields the Best label. -/
theorem C9_witness : getDominantTier demoSelections = tierLabel "best" :=
  (C9_dominantTier demoSelections).2.2 "best" (by decide) (by decide)

/-- Modelled from the claim's words: the first tier in the fixed
enumeration order good, standard, better, best whose count attains the
maximum. -/
def firstMaxTierName (c : TierCounts) : Option String :=
  tierNames.find? (fun t => tierCount c t = maxTierCount c)

theorem bumpTier_comm (c : TierCounts) (t u : String) :
    bumpTier (bumpTier c t) u = bumpTier (bumpTier c u) t := by
  cases c
  unfold bumpTier
  split_ifs <;> simp_all

theorem bumpTier_not_mem {t : String} (h : ¬ t ∈ tierNames) (c : TierCounts) :
    bumpTier c t = c := by
  simp only [tierNames, List.mem_cons, not_or] at h
  obtain ⟨h1, h2, h3, h4, -⟩ := h
  simp [bumpTier, h1, h2, h3, h4]

theorem countTiers_perm {l1 l2 : List (String × Option String)} (h : l1.Perm l2) :
    countTiers l1 = countTiers l2 := by
  unfold countTiers
  refine h.foldl_eq' (fun x _ y _ z => ?_) _
  rcases hx : x.2 with _ | t <;> rcases hy : y.2 with _ | u <;>
    simp [hx, hy, bumpTier_comm]

theorem countTiers_filter_loop :
    ∀ (sels : List (String × Option String)) (c : TierCounts),
      (sels.filter (fun kv => match kv.2 with
          | some t => decide (t ∈ tierNames)
          | none => false)).foldl
        (fun c kv => match kv.2 with
          | some t => bumpTier c t
          | none => c) c
      = sels.foldl
          (fun c kv => match kv.2 with
            | some t => bumpTier c t
            | none => c) c := by
  intro sels
  induction sels with
  | nil => intro c; rfl
  | cons kv tl ih =>
    intro c
    rcases hv : kv.2 with _ | t
    · rw [List.filter_cons_of_neg (by simp [hv]), List.foldl_cons, ih]
      simp [hv]
    · by_cases hmem : t ∈ tierNames
      · rw [List.filter_cons_of_pos (by simp [hv, hmem]), List.foldl_cons,
          List.foldl_cons, ih]
      · rw [List.filter_cons_of_neg (by simp [hv, hmem]), List.foldl_cons, ih]
        simp [hv, bumpTier_not_mem hmem]

theorem getDominantTier_firstMax (sels : List (String × Option String))
    (h : maxTierCount (countTiers sels) ≠ 0) :
    ∃ t, firstMaxTierName (countTiers sels) = some t
      ∧ getDominantTier sels = tierLabel t := by
  set c := countTiers sels with hc
  by_cases hg : c.good = maxTierCount c
  · refine ⟨"good", ?_, ?_⟩
    · rw [firstMaxTierName, tierNames,
        List.find?_cons_of_pos _ (by simp [tierCount, hg])]
    · simp only [getDominantTier, ← hc]
      rw [if_neg h, if_pos hg]
      rfl
  · by_cases hs : c.standard = maxTierCount c
    · refine ⟨"standard", ?_, ?_⟩
      · rw [firstMaxTierName, tierNames,
          List.find?_cons_of_neg _ (by simp [tierCount, hg]),
          List.find?_cons_of_pos _ (by simp [tierCount, hs])]
      · simp only [getDominantTier, ← hc]
        rw [if_neg h, if_neg hg, if_pos hs]
        rfl
    · by_cases hb : c.better = maxTierCount c
      · refine ⟨"better", ?_, ?_⟩
        · rw [firstMaxTierName, tierNames,
            List.find?_cons_of_neg _ (by simp [tierCount, hg]),
            List.find?_cons_of_neg _ (by simp [tierCount, hs]),
            List.find?_cons_of_pos _ (by simp [tierCount, hb])]
        · simp only [getDominantTier, ← hc]
          rw [if_neg h, if_neg hg, if_neg hs, if_pos hb]
          rfl
      · have he : c.best = maxTierCount c := by
          simp only [maxTierCount] at *
          omega
        refine ⟨"best", ?_, ?_⟩
        · rw [firstMaxTierName, tierNames,
            List.find?_cons_of_neg _ (by simp [tierCount, hg]),
            List.find?_cons_of_neg _ (by simp [tierCount, hs]),
            List.find?_cons_of_neg _ (by simp [tierCount, hb]),
            List.find?_cons_of_pos _ (by simp [tierCount, he])]
        · simp only [getDominantTier, ← hc]
          rw [if_neg h, if_neg hg, if_neg hs, if_neg hb]
          rfl

/-- C10: `getDominantTier` is total and deterministic with a fixed
tie-break: only the four tier names are counted (filtering the selection
values to those names changes nothing), the result is invariant under any
permutation of the selections map, and whenever the maximum count is
positive the result is the label of the first maximal tier in the fixed
enumeration order good, standard, better, best — so ties resolve toward
the cheaper tier, independent of insertion order. -/
theorem C10_dominantTier_deterministic (sels : List (String × Option String)) :
    countTiers (sels.filter (fun kv => match kv.2 with
        | some t => decide (t ∈ tierNames)
        | none => false)) = countTiers sels
    ∧ (∀ sels2, sels.Perm sels2 → getDominantTier sels = getDominantTier sels2)
    ∧ (maxTierCount (countTiers sels) ≠ 0 →
        ∃ t, firstMaxTierName (countTiers sels) = some t
          ∧ getDominantTier sels = tierLabel t) := by
  refine ⟨countTiers_filter_loop sels ⟨0, 0, 0, 0⟩, ?_, getDominantTier_firstMax sels⟩
  intro sels2 hperm
  unfold getDominantTier
  rw [countTiers_perm hperm]

/-- A two-way tie: "best" and "good" each occur once. -/
def tieSelections : List (String × Option String) :=
  [("networking", some "best"), ("audio", some "good")]

/-- C10 witness: on a good/best tie the first tier in enumeration order
wins, so the result is the Good label. -/
theorem C10_witness :
    maxTierCount (countTiers tieSelections) ≠ 0
    ∧ getDominantTier tieSelections = "Good Tier" := by
  refine ⟨by decide, ?_⟩
  obtain ⟨t, ht, he⟩ := (C10_dominantTier_deterministic tieSelections).2.2 (by decide)
  have h2 : firstMaxTierName (countTiers tieSelections) = some "good" := by decide
  rw [h2] at ht
  have h3 : t = "good" := (Option.some_inj.mp ht).symm
  rw [h3] at he
  exact he

-- ============================================================
-- C2 / C3 / C4 / C5: the budget version store
-- ============================================================

theorem setPinnedAndNote_map_version (vs : List Version) (vn : ℕ) (n : String) :
    (setPinnedAndNote vs vn n).map (fun v => v.version) = vs.map (fun v => v.version) := by
  unfold setPinnedAndNote
  rw [List.map_map]
  exact List.map_congr_left (fun v _ => by
    by_cases h : v.version = vn <;> simp [Function.comp, h])

theorem setPinnedAndNote_map_state (vs : List Version) (vn : ℕ) (n : String) :
    (setPinnedAndNote vs vn n).map (fun v => v.state) = vs.map (fun v => v.state) := by
  unfold setPinnedAndNote
  rw [List.map_map]
  exact List.map_congr_left (fun v _ => by
    by_cases h : v.version = vn <;> simp [Function.comp, h])

theorem overwriteStateAt_map_version (vs : List Version) (vn : ℕ) (s : StateObj) (now : ℤ) :
    (overwriteStateAt vs vn s now).map (fun v => v.version) = vs.map (fun v => v.version) := by
  unfold overwriteStateAt
  rw [List.map_map]
  exact List.map_congr_left (fun v _ => by
    by_cases h : v.version = vn <;> simp [Function.comp, h])

theorem consecutive_congr {vs1 vs2 : List Version}
    (h : vs2.map (fun v => v.version) = vs1.map (fun v => v.version))
    (hc : vs1.map (fun v => v.version) = List.range' 1 vs1.length) :
    vs2.map (fun v => v.version) = List.range' 1 vs2.length := by
  have hlen : vs2.length = vs1.length := by
    have := congrArg List.length h
    simpa using this
  rw [h, hlen, hc]

theorem range1_concat (n : ℕ) : List.range' 1 (n + 1) = List.range' 1 n ++ [n + 1] := by
  rw [List.range'_concat]
  simp [Nat.add_comm]

theorem updateBudget_some (b : Budget) (newState : StateObj) (note : Option String)
    (pin : Bool) (now : ℤ) (lastVersion : Version)
    (hl : b.versions.getLast? = some lastVersion) :
    updateBudget b newState note pin now =
      (if normalizeState lastVersion.state = normalizeState newState then
        if pin && !lastVersion.pinned then
          some ({ b with versions := setPinnedAndNote b.versions lastVersion.version (jsOrStr note lastVersion.note) },
                UpdateOutcome.pinnedInPlace)
        else some (b, UpdateOutcome.noChange)
      else if !lastVersion.pinned
          && decide (now - lastVersion.timestamp < VERSION_CONSOLIDATION_MS)
          && !pin then
        some ({ versions := overwriteStateAt b.versions lastVersion.version newState now,
                currentState := newState }, UpdateOutcome.consolidated)
      else
        some ({ versions := b.versions
                  ++ [⟨b.versions.length + 1, now, newState,
                       if pin then jsOrStr note "Shared/Emailed" else "Auto-save", pin⟩],
                currentState := newState }, UpdateOutcome.appended)) := by
  unfold updateBudget
  rw [hl]

/-- C3: a save whose state normalizes equal to the latest version's state
creates no version: count, version numbers and stored states are all
unchanged and `currentState` is untouched; without an effective pin request
the budget is left entirely as it was, and with one only the latest
version's pinned flag (and optionally its note) is updated in place. -/
theorem C3_noop_save (b : Budget) (newState : StateObj) (note : Option String)
    (pin : Bool) (now : ℤ) (lastVersion : Version)
    (hl : b.versions.getLast? = some lastVersion)
    (hs : normalizeState lastVersion.state = normalizeState newState) :
    ∃ b2 o, updateBudget b newState note pin now = some (b2, o)
      ∧ b2.versions.length = b.versions.length
      ∧ b2.versions.map (fun v => v.version) = b.versions.map (fun v => v.version)
      ∧ b2.versions.map (fun v => v.state) = b.versions.map (fun v => v.state)
      ∧ b2.currentState = b.currentState
      ∧ ((pin = false ∨ lastVersion.pinned = true) →
          b2 = b ∧ o = UpdateOutcome.noChange)
      ∧ (pin = true → lastVersion.pinned = false →
          o = UpdateOutcome.pinnedInPlace
          ∧ b2.versions = setPinnedAndNote b.versions lastVersion.version
              (jsOrStr note lastVersion.note)) := by
  rw [updateBudget_some b newState note pin now lastVersion hl, if_pos hs]
  by_cases hp : (pin && !lastVersion.pinned) = true
  · rw [if_pos hp]
    refine ⟨_, _, rfl, by simp [setPinnedAndNote], setPinnedAndNote_map_version _ _ _,
      setPinnedAndNote_map_state _ _ _, rfl, ?_, fun _ _ => ⟨rfl, rfl⟩⟩
    intro hcontra
    exfalso
    rcases hcontra with h | h <;> simp [h] at hp
  · rw [if_neg hp]
    refine ⟨b, UpdateOutcome.noChange, rfl, rfl, rfl, rfl, rfl,
      fun _ => ⟨rfl, rfl⟩, ?_⟩
    intro hpin hnp
    exfalso
    exact hp (by simp [hpin, hnp])

/-- C2 (amended): on a save whose state normalizes differently from the
latest version's, an unpinned latest version younger than the 15-minute
window with no pin request is overwritten in place (state and timestamp
replaced, version numbers and count unchanged); in every other case a
version numbered count + 1 is appended whose pinned flag is the pin
request and whose note is "Auto-save" whenever pinning was not requested
(a caller-supplied note is ignored then), and otherwise the caller's note,
defaulting to "Shared/Emailed" when pinned with no note. -/
theorem C2_changed_state_update (b : Budget) (newState : StateObj)
    (note : Option String) (pin : Bool) (now : ℤ) (lastVersion : Version)
    (hl : b.versions.getLast? = some lastVersion)
    (hs : normalizeState lastVersion.state ≠ normalizeState newState) :
    ((lastVersion.pinned = false
        ∧ now - lastVersion.timestamp < VERSION_CONSOLIDATION_MS
        ∧ pin = false) →
      updateBudget b newState note pin now
        = some ({ versions := overwriteStateAt b.versions lastVersion.version newState now,
                  currentState := newState }, UpdateOutcome.consolidated)
      ∧ (overwriteStateAt b.versions lastVersion.version newState now).map
            (fun v => v.version) = b.versions.map (fun v => v.version)
      ∧ (overwriteStateAt b.versions lastVersion.version newState now).length
          = b.versions.length)
    ∧ ((lastVersion.pinned = true
        ∨ VERSION_CONSOLIDATION_MS ≤ now - lastVersion.timestamp
        ∨ pin = true) →
      updateBudget b newState note pin now
        = some ({ versions := b.versions
                    ++ [⟨b.versions.length + 1, now, newState,
                         if pin then jsOrStr note "Shared/Emailed" else "Auto-save", pin⟩],
                  currentState := newState }, UpdateOutcome.appended)) := by
  constructor
  · rintro ⟨h1, h2, h3⟩
    have hcond : (!lastVersion.pinned
        && decide (now - lastVersion.timestamp < VERSION_CONSOLIDATION_MS)
        && !pin) = true := by simp [h1, h2, h3]
    rw [updateBudget_some b newState note pin now lastVersion hl, if_neg hs, if_pos hcond]
    exact ⟨rfl, overwriteStateAt_map_version _ _ _ _, by simp [overwriteStateAt]⟩
  · intro hother
    have hcond : (!lastVersion.pinned
        && decide (now - lastVersion.timestamp < VERSION_CONSOLIDATION_MS)
        && !pin) = false := by
      rcases hother with h | h | h
      · simp [h]
      · have : ¬ (now - lastVersion.timestamp < VERSION_CONSOLIDATION_MS) := by omega
        simp [this]
      · simp [h]
    rw [updateBudget_some b newState note pin now lastVersion hl, if_neg hs,
      if_neg (by simp [hcond])]

/-- A selection state and a changed one (normalized forms differ). -/
def exStateA : StateObj := [("homeSize", "4000"), ("total", "0")]

def exStateB : StateObj := [("homeSize", "5000"), ("total", "8000")]

/-- The same state as `exStateA` with reordered keys and a volatile
timestamp field: its normalized form equals `exStateA`'s. -/
def exStateA2 : StateObj := [("total", "0"), ("timestamp", "999"), ("homeSize", "4000")]

/-- The budget produced by an appending save of `exStateB` on a fresh
budget seeded with `exStateA`. -/
def demoUpdatedBudget : Budget :=
  { versions := [⟨1, 0, exStateA, "Initial budget", true⟩,
                 ⟨2, 1200000, exStateB, "Auto-save", false⟩],
    currentState := exStateB }

/-- The single pinned version seeded by `createBudget exStateA 0`. -/
def exInitialVersion : Version := ⟨1, 0, exStateA, "Initial budget", true⟩

/-- C3 witness: saving `exStateA2` (same state, reordered keys, volatile
timestamp field) over a fresh budget is a no-op. -/
theorem C3_witness :
    ∃ b2 o, updateBudget (createBudget exStateA 0) exStateA2 none false 1000 = some (b2, o)
      ∧ b2.versions.length = (createBudget exStateA 0).versions.length
      ∧ b2.versions.map (fun v => v.version)
          = (createBudget exStateA 0).versions.map (fun v => v.version)
      ∧ b2.versions.map (fun v => v.state)
          = (createBudget exStateA 0).versions.map (fun v => v.state)
      ∧ b2.currentState = (createBudget exStateA 0).currentState
      ∧ ((false = false ∨ exInitialVersion.pinned = true) →
          b2 = createBudget exStateA 0 ∧ o = UpdateOutcome.noChange)
      ∧ (false = true → exInitialVersion.pinned = false →
          o = UpdateOutcome.pinnedInPlace
          ∧ b2.versions = setPinnedAndNote (createBudget exStateA 0).versions
              exInitialVersion.version (jsOrStr none exInitialVersion.note)) :=
  C3_noop_save (createBudget exStateA 0) exStateA2 none false 1000 exInitialVersion
    (by decide) (by decide)

/-- C2 counterexample: on a fresh budget (whose only version is pinned) a
changed-state save with caller note "Keep this" and no pin request appends
a version whose note is "Auto-save" — the caller-supplied note is ignored,
contradicting the claim that the note is the caller-supplied one. -/
theorem C2_counterexample :
    (updateBudget (createBudget exStateA 0) exStateB (some "Keep this") false 1200000
        = some (demoUpdatedBudget, UpdateOutcome.appended)
      ∧ demoUpdatedBudget.versions.map (fun v => v.note) = ["Initial budget", "Auto-save"])
    ∧ "Auto-save" ≠ "Keep this" := by
  exact ⟨⟨by decide, by decide⟩, by decide⟩

/-- C2 witness: a pinned save on a fresh unpinned-window budget appends
version 2 with the pin flag set, exercising the append branch. -/
theorem C2_witness :
    normalizeState (Version.state ⟨1, 0, exStateA, "Initial budget", true⟩)
        ≠ normalizeState exStateB
    ∧ updateBudget (createBudget exStateA 0) exStateB (some "Sent") true 1000
        = some ({ versions := (createBudget exStateA 0).versions
                    ++ [⟨(createBudget exStateA 0).versions.length + 1, 1000, exStateB,
                         if true then jsOrStr (some "Sent") "Shared/Emailed" else "Auto-save",
                         true⟩],
                  currentState := exStateB }, UpdateOutcome.appended) :=
  ⟨by decide,
    (C2_changed_state_update (createBudget exStateA 0) exStateB (some "Sent") true 1000
      ⟨1, 0, exStateA, "Initial budget", true⟩ rfl (by decide)).2
      (Or.inl rfl)⟩

/-- C4: restoring to an existing version V always appends, never
overwrites: the prior version list is kept as a prefix and a new version
numbered count + 1 is added whose state is V's state, whose note is
"Restored to version {V}" and whose pinned flag is true. -/
theorem C4_restore_appends (b : Budget) (versionNum : ℕ) (now : ℤ)
    (targetVersion : Version)
    (h : b.versions.find? (fun v => v.version = versionNum) = some targetVersion) :
    restoreBudget b versionNum now
      = some ({ versions := b.versions
                  ++ [⟨b.versions.length + 1, now, targetVersion.state,
                       "Restored to version " ++ toString versionNum, true⟩],
                currentState := targetVersion.state },
              b.versions.length + 1) := by
  unfold restoreBudget
  rw [h]

/-- C4 witness: restoring version 1 of a fresh budget appends pinned
version 2 carrying version 1's state. -/
theorem C4_witness :
    restoreBudget (createBudget exStateA 0) 1 500
      = some ({ versions := (createBudget exStateA 0).versions
                  ++ [⟨(createBudget exStateA 0).versions.length + 1, 500, exStateA,
                       "Restored to version " ++ toString 1, true⟩],
                currentState := exStateA },
              (createBudget exStateA 0).versions.length + 1) :=
  C4_restore_appends (createBudget exStateA 0) 1 500
    ⟨1, 0, exStateA, "Initial budget", true⟩ rfl

/-- C5: every version-store operation preserves the invariant that a
budget's version numbers are exactly 1, 2, …, N: create seeds version 1,
update and restore only ever assign count + 1, customize wipes the list
and reseeds a single version numbered 1; the invariant makes the numbers
1-based and strictly increasing. -/
theorem C5_version_numbering :
    (∀ s now, versionsConsecutive (createBudget s now))
    ∧ (∀ b newState note pin now b2 o, versionsConsecutive b →
        updateBudget b newState note pin now = some (b2, o) →
        versionsConsecutive b2)
    ∧ (∀ b vn now b2 n, versionsConsecutive b →
        restoreBudget b vn now = some (b2, n) → versionsConsecutive b2)
    ∧ (∀ b now, versionsConsecutive (customizeBudget b now))
    ∧ (∀ b, versionsConsecutive b →
        (b.versions.map (fun v => v.version)).Pairwise (· < ·)
        ∧ ∀ v ∈ b.versions, 1 ≤ v.version) := by
  refine ⟨fun s now => rfl, ?_, ?_, fun b now => rfl, ?_⟩
  · intro b newState note pin now b2 o hinv h
    rcases hgl : b.versions.getLast? with _ | lastVersion
    · unfold updateBudget at h
      rw [hgl] at h
      simp at h
    · rw [updateBudget_some b newState note pin now lastVersion hgl] at h
      split_ifs at h with h1 h2 h3 h4
      · simp only [Option.some.injEq, Prod.mk.injEq] at h
        obtain ⟨hb2, -⟩ := h
        subst hb2
        unfold versionsConsecutive at *
        exact consecutive_congr (setPinnedAndNote_map_version _ _ _) hinv
      · simp only [Option.some.injEq, Prod.mk.injEq] at h
        obtain ⟨hb2, -⟩ := h
        subst hb2
        exact hinv
      · simp only [Option.some.injEq, Prod.mk.injEq] at h
        obtain ⟨hb2, -⟩ := h
        subst hb2
        unfold versionsConsecutive at *
        exact consecutive_congr (overwriteStateAt_map_version _ _ _ _) hinv
      all_goals
        simp only [Option.some.injEq, Prod.mk.injEq] at h
        obtain ⟨hb2, -⟩ := h
        subst hb2
        unfold versionsConsecutive at *
        simp only [List.map_append, List.length_append, List.map_cons, List.map_nil,
          List.length_cons, List.length_nil]
        rw [hinv, range1_concat]
  · intro b vn now b2 n hinv h
    unfold restoreBudget at h
    rcases hf : b.versions.find? (fun v => v.version = vn) with _ | targetVersion
    · rw [hf] at h
      simp at h
    · rw [hf] at h
      simp only [Option.some.injEq, Prod.mk.injEq] at h
      obtain ⟨hb2, -⟩ := h
      subst hb2
      unfold versionsConsecutive at *
      simp only [List.map_append, List.length_append, List.map_cons, List.map_nil,
        List.length_cons, List.length_nil]
      rw [hinv, range1_concat]
  · intro b hinv
    unfold versionsConsecutive at hinv
    constructor
    · rw [hinv]
      exact List.pairwise_lt_range' 1 b.versions.length
    · intro v hv
      have hm : v.version ∈ b.versions.map (fun v => v.version) :=
        List.mem_map_of_mem _ hv
      rw [hinv, List.mem_range'] at hm
      obtain ⟨i, -, he⟩ := hm
      omega

/-- C5 witness: the numbering invariant holds after `createBudget` and is
carried through an appending `updateBudget`. -/
theorem C5_witness : versionsConsecutive demoUpdatedBudget :=
  C5_version_numbering.2.1 (createBudget exStateA 0) exStateB none false 1200000
    demoUpdatedBudget UpdateOutcome.appended
    (C5_version_numbering.1 exStateA 0) (by decide)

end GammaBudget
